import Mathlib

/-!
Verification of the frontend API client of skillora-analytics
(`frontend/src/lib/api.ts`) against its specification.

The TypeScript module is shallowly embedded: JSON payloads (the values
produced by `Response.json()`, i.e. by `JSON.parse`) are an inductive type
with rational numbers; JavaScript property access, key camelization,
truthiness, the nullish operator `??`, `Number(...)` coercion and
`Math.round`/`Math.min`/`Math.max` are modelled explicitly; code that can
throw returns `Except`.
-/

namespace Skillora

/-- JSON values as produced by `Response.json()` / `JSON.parse`: there is no
`undefined`, no `NaN` and no infinity (JSON cannot encode them); numbers are
modelled as rationals (every JSON numeric literal denotes a rational).
Object fields keep textual order; duplicate keys may occur, and as in
JavaScript the later entry shadows the earlier one on property access. -/
inductive JsonValue where
  | null
  | bool (b : Bool)
  | num (q : ℚ)
  | str (s : String)
  | arr (elems : List JsonValue)
  | obj (fields : List (String × JsonValue))

/-- Property lookup in an entry list where a later duplicate key shadows an
earlier one, as with `JSON.parse` duplicate keys and `Object.fromEntries`. -/
def lookupLast (k : String) : List (String × JsonValue) → Option JsonValue
  | [] => none
  | (k', v) :: rest =>
    match lookupLast k rest with
    | some w => some w
    | none => if k' = k then some v else none

/-- A key that is a canonical array index: digits only, no leading zero
(JavaScript array access `a["07"]` does not hit index 7). -/
def arrayIndex? (k : String) : Option ℕ :=
  match k.data with
  | [] => none
  | ['0'] => some 0
  | c :: cs =>
    if c.isDigit && c ≠ '0' && cs.all Char.isDigit then
      some (cs.foldl (fun a d => 10 * a + (d.toNat - 48)) (c.toNat - 48))
    else none

/-- JavaScript property access `x[k]` for the value kinds reachable here,
with `none` for `undefined`. Array and string indices are canonical
numeric-string keys; property access on numbers and booleans yields
`undefined` (primitive boxing); access on `null` is NOT modelled here
because it throws — callers that can reach `null` handle it separately. -/
def jsGetField : JsonValue → String → Option JsonValue
  | .obj fs, k => lookupLast k fs
  | .arr vs, k =>
    match arrayIndex? k with
    | some i => vs.get? i
    | none => none
  | .str s, k =>
    match arrayIndex? k with
    | some i => (s.data.get? i).map (fun c => JsonValue.str (String.singleton c))
    | none => none
  | _, _ => none

/-- `Object.entries` (also the own enumerable properties taken by object
spread `{...x}`): object fields, array and string index entries, nothing for
numbers and booleans. (`Object.entries(null)` throws, but the one call site,
`normalizeKeys`, replaces null by `{}` first.) -/
def jsEntries : JsonValue → List (String × JsonValue)
  | .obj fs => fs
  | .arr vs => vs.enum.map (fun iv => (toString iv.1, iv.2))
  | .str s => s.data.enum.map (fun ic => (toString ic.1, JsonValue.str (String.singleton ic.2)))
  | _ => []

/-- JavaScript truthiness of a JSON value. -/
def jsTruthy : JsonValue → Bool
  | .null => false
  | .bool b => b
  | .num q => q ≠ 0
  | .str s => s ≠ ""
  | .arr _ => true
  | .obj _ => true

/-- Truthiness of a possibly-absent value: `Boolean(undefined)` is false. -/
def jsTruthyOpt : Option JsonValue → Bool
  | none => false
  | some v => jsTruthy v

/-- True when an optional value is `undefined` (absent) or `null` — exactly
the values the nullish operator `??` falls through. -/
def undefOrNull : Option JsonValue → Bool
  | none => true
  | some .null => true
  | some _ => false

/-- The nullish-coalescing operator `a ?? b` on possibly-absent values. -/
def nvl (a b : Option JsonValue) : Option JsonValue :=
  if undefOrNull a then b else a

/-- Optional chaining `v?.[k]`: `undefined` when the receiver is absent or
`null`, otherwise plain property access. -/
def optChain (v : Option JsonValue) (k : String) : Option JsonValue :=
  match v with
  | none => none
  | some .null => none
  | some w => jsGetField w k

/-- `c` matches the regex class `\w` (no unicode flag): `[A-Za-z0-9_]`. -/
def isWordChar (c : Char) : Bool := c.isAlpha || c.isDigit || c = '_'

/-- Core of `toCamel`: `s.replace(/[_-](\w)/g, (_, c) => c.toUpperCase())`,
i.e. each non-overlapping leftmost match of an underscore or hyphen followed
by a word character is replaced by that character uppercased. -/
def toCamelChars : List Char → List Char
  | [] => []
  | [c] => [c]
  | c₁ :: c₂ :: rest =>
    if (c₁ = '_' || c₁ = '-') && isWordChar c₂ then
      c₂.toUpper :: toCamelChars rest
    else
      c₁ :: toCamelChars (c₂ :: rest)

/-- `toCamel` from api.ts: shallow snake/kebab to camel key conversion. -/
def toCamel (s : String) : String := ⟨toCamelChars s.data⟩

/-- `normalizeKeys` from api.ts: `Object.fromEntries` over the entries of
`obj ?? {}` with camelized keys. Represented as the camelized entry list;
property reads use `lookupLast`, matching `Object.fromEntries` where a later
duplicate key wins. -/
def normalizeKeys (raw : JsonValue) : List (String × JsonValue) :=
  (jsEntries raw).map (fun kv => (toCamel kv.1, kv.2))

/-- Property access on the object built by `normalizeKeys`. -/
def nGet (raw : JsonValue) (k : String) : Option JsonValue :=
  lookupLast k (normalizeKeys raw)

/-! ### `Number(...)` coercion -/

/-- Decimal digit run: longest digit run and the rest. -/
def splitDigits : List Char → List Char × List Char
  | [] => ([], [])
  | c :: cs =>
    if c.isDigit then
      let dr := splitDigits cs
      (c :: dr.1, dr.2)
    else ([], c :: cs)

/-- Value of a digit run. -/
def digitsToNat (ds : List Char) : ℕ :=
  ds.foldl (fun a c => 10 * a + (c.toNat - 48)) 0

/-- Whole remaining input as an unsigned integer, `none` if empty or not
all digits. -/
def parseNatDigits (cs : List Char) : Option ℕ :=
  let dr := splitDigits cs
  if dr.1 = [] ∨ dr.2 ≠ [] then none else some (digitsToNat dr.1)

/-- Signed integer (exponent part). -/
def parseSignedInt : List Char → Option ℤ
  | '+' :: cs => (parseNatDigits cs).map (fun n => (n : ℤ))
  | '-' :: cs => (parseNatDigits cs).map (fun n => -(n : ℤ))
  | cs => (parseNatDigits cs).map (fun n => (n : ℤ))

/-- Optional exponent suffix `e`/`E` followed by a signed integer. -/
def parseExpPart : List Char → Option ℤ
  | [] => some 0
  | 'e' :: cs => parseSignedInt cs
  | 'E' :: cs => parseSignedInt cs
  | _ => none

/-- Apply a base-10 exponent. -/
def applyExp (q : ℚ) (e : ℤ) : ℚ := q * (10 : ℚ) ^ e

/-- Unsigned decimal literal `digits [. digits] [exp]` or `. digits [exp]`. -/
def parseUnsigned (cs : List Char) : Option ℚ :=
  let ir := splitDigits cs
  match ir.2 with
  | '.' :: r2 =>
    let fr := splitDigits r2
    if ir.1 = [] ∧ fr.1 = [] then none
    else
      (parseExpPart fr.2).map
        (fun e => applyExp ((digitsToNat ir.1 : ℚ) + (digitsToNat fr.1 : ℚ) / (10 : ℚ) ^ fr.1.length) e)
  | _ =>
    if ir.1 = [] then none
    else (parseExpPart ir.2).map (fun e => applyExp ((digitsToNat ir.1 : ℚ)) e)

/-- Leading and trailing whitespace removal, as `Number(s)` performs on its
string argument. -/
def trimChars (cs : List Char) : List Char :=
  ((cs.dropWhile Char.isWhitespace).reverse.dropWhile Char.isWhitespace).reverse

/-- JavaScript string-to-number conversion (`Number(s)` on a string):
trimmed empty string is 0, otherwise an optionally signed decimal literal;
`none` models `NaN`. Hexadecimal/octal/binary literals and the `Infinity`
spellings are not representable in this rational model and are mapped to
`none`; no claim depends on them. -/
def strToNumber (s : String) : Option ℚ :=
  match trimChars s.data with
  | [] => some 0
  | '-' :: cs => (parseUnsigned cs).map Neg.neg
  | '+' :: cs => parseUnsigned cs
  | cs => parseUnsigned cs

/-- JavaScript `Number(v)` (the `ToNumber` coercion) on JSON values; `none`
models `NaN`. Arrays convert through their joined string form: the empty
array is 0 and a singleton converts via the string form of its element (a
JSON number round-trips through its literal); joined multi-element strings
such as `"1,2"` are never numeric, hence `NaN`; deeply nested singleton
arrays and boolean singletons stringify to non-numeric text, hence `NaN`
(`[true]` gives the text `true`). Plain objects stringify to
`[object Object]`, hence `NaN`. -/
def toNumber : JsonValue → Option ℚ
  | .null => some 0
  | .bool b => some (if b then 1 else 0)
  | .num q => some q
  | .str s => strToNumber s
  | .arr [] => some 0
  | .arr [.null] => some 0
  | .arr [.num q] => some q
  | .arr [.str s] => strToNumber s
  | .arr _ => none
  | .obj _ => none

/-- `Math.round`: round half toward positive infinity, `⌊q + 1/2⌋`. -/
def jsRound (q : ℚ) : ℤ := ⌊q + 1 / 2⌋

/-- `Math.max(0, Math.min(100, Math.round(p)))` from `normalizeTaskStatus`. -/
def boundedPercent (q : ℚ) : ℚ := ((max 0 (min 100 (jsRound q)) : ℤ) : ℚ)

/-! ### Result types and errors -/

/-- Everything api.ts can throw. `apiErr` is the `ApiError` class with its
`status` and `payload` fields (the human-readable `message` string is not
modelled); `errMsg` is a plain `Error` with its message; `typeErr` is the
TypeError raised by property access on `null`; `parseErr` is the rejection
of `res.json()` on a body that is not valid JSON. -/
inductive JsErr where
  | apiErr (status : ℕ) (payload : JsonValue)
  | errMsg (message : String)
  | typeErr
  | parseErr

/-- `UploadResponse` — the `fileId` the code extracts is whatever truthy
value the payload held, so it is kept as a `JsonValue`. -/
structure UploadResponse where
  fileId : JsonValue

/-- `MapResponse`. -/
structure MapResponse where
  taskId : JsonValue

/-- The object `{...n.meta, percent: bounded}` built by
`normalizeTaskStatus`: the spread entries of the raw `meta` value, with the
`percent` property overridden to `bounded`, whose TypeScript type is
`number | undefined` — `none` models `undefined`; `null` is not a possible
value of that field. -/
structure NormMeta where
  spread : List (String × JsonValue)
  percent : Option ℚ

/-- `TaskStatusResp`: `meta` is optional (`none` models `undefined`, and the
field is never `null`); `result` is the raw `result` value if present. -/
structure TaskStatusResp where
  id : JsonValue
  state : String
  meta : Option NormMeta
  ready : Bool
  successful : Bool
  result : Option JsonValue

/-- `SalarySummary`: numeric fields of the client type; `none` models `NaN`
(a JavaScript number), which the `Number(...)` fallback can produce. -/
structure SalarySummary where
  p50 : Option ℚ
  p75 : Option ℚ
  p90 : Option ℚ
  n : Option ℚ

/-- `StackCompareRow` with the same `none`-is-`NaN` convention. -/
structure StackCompareRow where
  stack : String
  p50 : Option ℚ
  n : Option ℚ

/-! ### Normalizers -/

/-- `normalizeUpload`: `fileId` from the camelized payload, throwing
`Invalid upload response` when it is falsy. -/
def normalizeUpload (raw : JsonValue) : Except JsErr UploadResponse :=
  match nGet raw "fileId" with
  | some v => if jsTruthy v then .ok ⟨v⟩ else .error (.errMsg invalidUploadMsg)
  | none => .error (.errMsg invalidUploadMsg)
where invalidUploadMsg : String := "Invalid upload response"

/-- `normalizeMap`: `n.taskId ?? n.id`, throwing `Invalid map response` when
the result is falsy (absent, null, empty string, 0 or false). -/
def normalizeMap (raw : JsonValue) : Except JsErr MapResponse :=
  match nvl (nGet raw "taskId") (nGet raw "id") with
  | some v => if jsTruthy v then .ok ⟨v⟩ else .error (.errMsg invalidMapMsg)
  | none => .error (.errMsg invalidMapMsg)
where invalidMapMsg : String := "Invalid map response"

/-- The `meta` value of the camelized payload (`n.meta`). -/
def metaValOf (raw : JsonValue) : Option JsonValue := nGet raw "meta"

/-- `n.meta?.percent`. -/
def rawPercent (raw : JsonValue) : Option JsonValue :=
  optChain (metaValOf raw) "percent"

/-- `typeof p === 'number' ? Math.max(0, Math.min(100, Math.round(p))) :
undefined`. -/
def boundedOf (raw : JsonValue) : Option ℚ :=
  match rawPercent raw with
  | some (.num q) => some (boundedPercent q)
  | _ => none

/-- `n.meta ? { ...n.meta, percent: bounded } : undefined`. -/
def metaOut (raw : JsonValue) : Option NormMeta :=
  match metaValOf raw with
  | some m => if jsTruthy m then some ⟨jsEntries m, boundedOf raw⟩ else none
  | none => none

/-- `n.state ?? n.status ?? 'PENDING'`. -/
def stateValOf (raw : JsonValue) : JsonValue :=
  match nvl (nGet raw "state") (nGet raw "status") with
  | some .null => .str "PENDING"
  | some v => v
  | none => .str "PENDING"

/-- `n.taskId ?? n.id ?? ''`. -/
def idOf (raw : JsonValue) : JsonValue :=
  match nvl (nGet raw "taskId") (nGet raw "id") with
  | some .null => .str ""
  | some v => v
  | none => .str ""

/-- `s.toUpperCase()` (the inputs the claims exercise are ASCII, where
`Char.toUpper` agrees with JavaScript). -/
def jsToUpper (s : String) : String := ⟨s.data.map Char.toUpper⟩

/-- `normalizeTaskStatus`: builds `TaskStatusResp` from the camelized
payload; `.toUpperCase()` on a non-string `state`/`status` value throws a
TypeError, which is the only way this function can fail. -/
def normalizeTaskStatus (raw : JsonValue) : Except JsErr TaskStatusResp :=
  match stateValOf raw with
  | .str s =>
    .ok
      { id := idOf raw
        state := jsToUpper s
        meta := metaOut raw
        ready := jsTruthyOpt (nGet raw "ready")
        successful := jsTruthyOpt (nGet raw "successful")
        result := nGet raw "result" }
  | _ => .error .typeErr

/-! ### Analytics mappers -/

/-- `(raw?.data) ?? raw ?? {}` from `salarySummary`. -/
def containerOf (raw : JsonValue) : JsonValue :=
  let d :=
    match raw with
    | .null => none
    | v => jsGetField v "data"
  match nvl (nvl d (some raw)) (some (.obj [])) with
  | some v => v
  | none => .obj []

/-- `num(v, 0)` from `salarySummary`:
`typeof v === 'number' ? v : Number(v ?? 0)`. -/
def numField (v : Option JsonValue) : Option ℚ :=
  match v with
  | some (.num q) => some q
  | w => toNumber ((nvl w (some (.num 0))).getD (.num 0))

/-- The pure field mapping of `salarySummary` over a parsed payload. -/
def salarySummaryOf (raw : JsonValue) : SalarySummary :=
  let c := containerOf raw
  { p50 := numField (nvl (jsGetField c "p50") (jsGetField c "median"))
    p75 := numField (jsGetField c "p75")
    p90 := numField (jsGetField c "p90")
    n := numField (nvl (jsGetField c "n") (jsGetField c "count")) }

/-- The body of the `stackCompare` row callback for a non-null element:
`stack` from a string-typed `stack`, else a string-typed `tech`, else `-`;
`p50` from a number-typed `p50`, else a number-typed `median`, else
`Number((row.p50) ?? (row.median) ?? 0)`; `n` likewise from `n`/`count`.
The trailing `String(stack)` and `Number(p50)`/`Number(n)` of the source are
identities: `stack` is already a string and the numeric chains already
produced a number (possibly `NaN`). -/
def rowOfNonNull (r : JsonValue) : StackCompareRow :=
  let stack :=
    match jsGetField r "stack" with
    | some (.str s) => s
    | _ =>
      match jsGetField r "tech" with
      | some (.str s) => s
      | _ => "-"
  let p50 :=
    match jsGetField r "p50" with
    | some (.num q) => some q
    | v1 =>
      match jsGetField r "median" with
      | some (.num q) => some q
      | v2 => toNumber ((nvl v1 (nvl v2 (some (.num 0)))).getD (.num 0))
  let n :=
    match jsGetField r "n" with
    | some (.num q) => some q
    | v1 =>
      match jsGetField r "count" with
      | some (.num q) => some q
      | v2 => toNumber ((nvl v1 (nvl v2 (some (.num 0)))).getD (.num 0))
  { stack := stack, p50 := p50, n := n }

/-- One invocation of the `stackCompare` row callback: the property reads
throw a TypeError when the element is `null`. -/
def stackRowOf (r : JsonValue) : Except JsErr StackCompareRow :=
  match r with
  | .null => .error .typeErr
  | v => .ok (rowOfNonNull v)

/-- `Array.prototype.map` with a callback that can throw: elements are
processed left to right and the first exception aborts the whole map. -/
def mapExcept (f : JsonValue → Except JsErr StackCompareRow) :
    List JsonValue → Except JsErr (List StackCompareRow)
  | [] => .ok []
  | e :: es =>
    match f e with
    | .error err => .error err
    | .ok r =>
      match mapExcept f es with
      | .error err => .error err
      | .ok rs => .ok (r :: rs)

/-- `(container)?.data ?? container` followed by the `Array.isArray` test:
the element list when the payload or its `data` field is an array. -/
def arrayPart (raw : JsonValue) : Option (List JsonValue) :=
  let d :=
    match raw with
    | .null => none
    | v => jsGetField v "data"
  match nvl d (some raw) with
  | some (.arr vs) => some vs
  | _ => none

/-- The body of `stackCompare` after the request: `[]` when neither the
payload nor its `data` field is an array, otherwise the row mapping (which
throws on a null element). -/
def stackCompareOf (raw : JsonValue) : Except JsErr (List StackCompareRow) :=
  match arrayPart raw with
  | none => .ok []
  | some els => mapExcept stackRowOf els

/-! ### HTTP layer and endpoints -/

/-- The members of a fetch `Response` the module reads: HTTP status, the
content-type header, the JSON parse of the body (`none` when the body is
not valid JSON, making `res.json()` reject) and the body text. -/
structure Response where
  status : ℕ
  contentType : String
  bodyJson : Option JsonValue
  bodyText : String

/-- `res.ok`: status in the inclusive range 200–299. -/
def Response.ok (res : Response) : Bool :=
  200 ≤ res.status && res.status ≤ 299

/-- Substring test, for `ct.includes('application/json')`. -/
def strContains (s pat : String) : Bool :=
  (List.range (s.data.length + 1)).any
    (fun i => decide ((s.data.drop i).take pat.data.length = pat.data))

/-- The payload attached to an `ApiError`: the parsed JSON body (`{}` when
parsing fails, via the `.catch(() => ({}))`) under a JSON content type, the
body text otherwise. -/
def errorPayload (res : Response) : JsonValue :=
  if strContains res.contentType "application/json" then
    res.bodyJson.getD (.obj [])
  else .str res.bodyText

/-- `requestJson`: throws an `ApiError` carrying the HTTP status and the
parsed body for a non-2xx response; otherwise returns the JSON body (whose
parse failure rejects). -/
def requestJson (res : Response) : Except JsErr JsonValue :=
  if res.ok then
    match res.bodyJson with
    | some v => .ok v
    | none => .error .parseErr
  else .error (.apiErr res.status (errorPayload res))

/-- `uploadFile`, as a function of the fetch response of its POST. -/
def uploadFile (res : Response) : Except JsErr UploadResponse :=
  (requestJson res).bind normalizeUpload

/-- `mapColumns`, as a function of the fetch response of its POST. -/
def mapColumns (res : Response) : Except JsErr MapResponse :=
  (requestJson res).bind normalizeMap

/-- `taskStatus`, as a function of the fetch response of its GET. -/
def taskStatus (res : Response) : Except JsErr TaskStatusResp :=
  (requestJson res).bind normalizeTaskStatus

/-- `salarySummary`, as a function of the fetch response of its GET. -/
def salarySummary (res : Response) : Except JsErr SalarySummary :=
  (requestJson res).map salarySummaryOf

/-- `stackCompare`, as a function of the fetch response of its GET. -/
def stackCompare (res : Response) : Except JsErr (List StackCompareRow) :=
  (requestJson res).bind stackCompareOf

/-- A 200 JSON response carrying the given payload. -/
def okJson (p : JsonValue) : Response :=
  { status := 200
    contentType := "application/json"
    bodyJson := some p
    bodyText := "" }

/-! ### Analytics Aggregator percentiles (spec-modelled) -/

/-- Insertion into an ascending list. -/
def insertAsc (x : ℚ) : List ℚ → List ℚ
  | [] => [x]
  | y :: ys => if x ≤ y then x :: y :: ys else y :: insertAsc x ys

/-- Ascending insertion sort. -/
def sortAsc (l : List ℚ) : List ℚ := l.foldr insertAsc []

/-- Modelled from the spec: the Analytics Aggregator percentile computation
is missing from the given source tree (the backend Celery/SQL analytics code
is not under the frontend module). Per the spec, percentiles use the
nearest-rank method on the sorted salary sequence with
rank = ceil(p/100 * n), selecting the element at that 1-based rank. -/
def nearestRankPercentile (p : ℕ) (xs : List ℚ) : Option ℚ :=
  let sorted := sortAsc xs
  let rank : ℤ := ⌈(p : ℚ) * (xs.length : ℚ) / 100⌉
  sorted.get? (rank.toNat - 1)


/-! ### Shared lemmas -/

/-- A 2xx response with a parsed body makes `requestJson` return it. -/
theorem requestJson_of_ok {res : Response} {raw : JsonValue}
    (hok : res.ok = true) (hb : res.bodyJson = some raw) :
    requestJson res = .ok raw := by
  simp [requestJson, hok, hb]

/-- `taskStatus` on a 2xx response is the pure normalizer. -/
theorem taskStatus_eval {res : Response} {raw : JsonValue}
    (hok : res.ok = true) (hb : res.bodyJson = some raw) :
    taskStatus res = normalizeTaskStatus raw := by
  unfold taskStatus
  rw [requestJson_of_ok hok hb]
  rfl

/-- `mapColumns` on a 2xx response is the pure normalizer. -/
theorem mapColumns_eval {res : Response} {raw : JsonValue}
    (hok : res.ok = true) (hb : res.bodyJson = some raw) :
    mapColumns res = normalizeMap raw := by
  unfold mapColumns
  rw [requestJson_of_ok hok hb]
  rfl

/-- `stackCompare` on a 2xx response is the pure mapper. -/
theorem stackCompare_eval {res : Response} {raw : JsonValue}
    (hok : res.ok = true) (hb : res.bodyJson = some raw) :
    stackCompare res = stackCompareOf raw := by
  unfold stackCompare
  rw [requestJson_of_ok hok hb]
  rfl

/-- `salarySummary` on a 2xx response is the pure mapper. -/
theorem salarySummary_eval (res : Response) {raw : JsonValue}
    (hok : res.ok = true) (hb : res.bodyJson = some raw) :
    salarySummary res = .ok (salarySummaryOf raw) := by
  unfold salarySummary
  rw [requestJson_of_ok hok hb]
  rfl

/-- An endpoint success implies the response was 2xx (`taskStatus`). -/
theorem taskStatus_ok_res {res : Response} {t : TaskStatusResp}
    (h : taskStatus res = .ok t) : res.ok = true := by
  by_cases hok : res.ok = true
  · exact hok
  · exfalso
    unfold taskStatus requestJson at h
    rw [if_neg hok] at h
    exact Except.noConfusion h

/-- An endpoint success implies the response was 2xx (`mapColumns`). -/
theorem mapColumns_ok_res {res : Response} {r : MapResponse}
    (h : mapColumns res = .ok r) : res.ok = true := by
  by_cases hok : res.ok = true
  · exact hok
  · exfalso
    unfold mapColumns requestJson at h
    rw [if_neg hok] at h
    exact Except.noConfusion h

/-- An endpoint success implies the response was 2xx (`stackCompare`). -/
theorem stackCompare_ok_res {res : Response} {rows : List StackCompareRow}
    (h : stackCompare res = .ok rows) : res.ok = true := by
  by_cases hok : res.ok = true
  · exact hok
  · exfalso
    unfold stackCompare requestJson at h
    rw [if_neg hok] at h
    exact Except.noConfusion h

/-- The fields of a successfully normalized task status, as the pieces of
the embedding they were built from. -/
theorem normalizeTaskStatus_fields {raw : JsonValue} {t : TaskStatusResp}
    (h : normalizeTaskStatus raw = .ok t) :
    t.meta = metaOut raw ∧ t.ready = jsTruthyOpt (nGet raw "ready") ∧
      t.successful = jsTruthyOpt (nGet raw "successful") ∧
      ∃ s, stateValOf raw = .str s ∧ t.state = jsToUpper s := by
  unfold normalizeTaskStatus at h
  split at h
  next s hs =>
    injection h with h
    subst h
    exact ⟨rfl, rfl, rfl, s, hs, rfl⟩
  next => exact Except.noConfusion h

/-- A numeric `meta.percent` forces `meta` to be a (truthy) object, and the
output meta carries the clamped percent. -/
theorem metaOut_of_percent {raw : JsonValue} {q : ℚ}
    (h : rawPercent raw = some (.num q)) :
    ∃ fs, metaValOf raw = some (.obj fs) ∧
      metaOut raw = some ⟨fs, some (boundedPercent q)⟩ := by
  unfold rawPercent optChain at h
  cases mv : metaValOf raw with
  | none => rw [mv] at h; exact Option.noConfusion h
  | some w =>
    rw [mv] at h
    cases w with
    | null => exact Option.noConfusion h
    | bool b => simp [jsGetField] at h
    | num q' => simp [jsGetField] at h
    | str s =>
      simp [jsGetField, show arrayIndex? "percent" = none from by decide] at h
    | arr vs =>
      simp [jsGetField, show arrayIndex? "percent" = none from by decide] at h
    | obj fs =>
      have h' : jsGetField (.obj fs) "percent" = some (.num q) := by simpa using h
      refine ⟨fs, rfl, ?_⟩
      unfold metaOut boundedOf rawPercent optChain
      rw [mv]
      simp [jsTruthy, jsEntries, h']

/-- `boundedPercent` is non-negative. -/
theorem boundedPercent_nonneg (q : ℚ) : 0 ≤ boundedPercent q := by
  unfold boundedPercent
  exact_mod_cast le_max_left (0 : ℤ) _

/-- `boundedPercent` is at most 100. -/
theorem boundedPercent_le_100 (q : ℚ) : boundedPercent q ≤ 100 := by
  unfold boundedPercent
  have h : max 0 (min 100 (jsRound q)) ≤ (100 : ℤ) :=
    max_le (by norm_num) (min_le_left _ _)
  exact_mod_cast h

/-- `jsRound` lands within one half of its argument: it is a nearest
integer. -/
theorem jsRound_near (q : ℚ) : |((jsRound q : ℤ) : ℚ) - q| ≤ 1 / 2 := by
  unfold jsRound
  have h1 : ((⌊q + 1 / 2⌋ : ℤ) : ℚ) ≤ q + 1 / 2 := Int.floor_le _
  have h2 : q + 1 / 2 < ((⌊q + 1 / 2⌋ : ℤ) : ℚ) + 1 := Int.lt_floor_add_one _
  rw [abs_le]
  constructor <;> linarith

/-! ### C1 -/

/-- C1 (counterexample): for the raw payload `{status: "started"}` the value
returned by `taskStatus` has state `STARTED`, which is not one of the
canonical lifecycle names PENDING/RUNNING/SUCCESS/FAILED/CANCELLED/RETRY —
refuting the claim that the returned state is always one of those names. -/
theorem taskStatus_state_canonical_counterexample :
    taskStatus (okJson (.obj [("status", .str "started")])) =
      .ok ⟨.str "", "STARTED", none, false, false, none⟩ ∧
      "STARTED" ∉ ["PENDING", "RUNNING", "SUCCESS", "FAILED", "CANCELLED", "RETRY"] :=
  ⟨rfl, by decide⟩

/-- The six names of the `CeleryState` union type in api.ts. -/
def celeryStates : List String :=
  ["PENDING", "STARTED", "PROGRESS", "RETRY", "FAILURE", "SUCCESS"]

/-- C1 (amended): `taskStatus` returns the uppercased raw `state`/`status`
string, defaulting to PENDING when it is absent or null; hence the returned
state ranges over the Celery vocabulary
PENDING/STARTED/PROGRESS/RETRY/FAILURE/SUCCESS — not the canonical lifecycle
names of the claim — whenever the raw value is absent/null or uppercases
into that vocabulary. -/
theorem taskStatus_state_celery_names (res : Response) {raw : JsonValue}
    {t : TaskStatusResp} (hb : res.bodyJson = some raw)
    (h : taskStatus res = .ok t)
    (hs : undefOrNull (nvl (nGet raw "state") (nGet raw "status")) = true ∨
      ∃ s, nvl (nGet raw "state") (nGet raw "status") = some (.str s) ∧
        jsToUpper s ∈ celeryStates) :
    t.state ∈ celeryStates := by
  have hn := normalizeTaskStatus_fields ((taskStatus_eval (taskStatus_ok_res h) hb) ▸ h)
  obtain ⟨-, -, -, s', hsv, hst⟩ := hn
  rcases hs with hun | ⟨s, hval, hmem⟩
  · have hP : stateValOf raw = .str "PENDING" := by
      unfold stateValOf
      cases hnv : nvl (nGet raw "state") (nGet raw "status") with
      | none => rfl
      | some v =>
        rw [hnv] at hun
        cases v with
        | null => rfl
        | bool b => simp [undefOrNull] at hun
        | num q => simp [undefOrNull] at hun
        | str s => simp [undefOrNull] at hun
        | arr l => simp [undefOrNull] at hun
        | obj l => simp [undefOrNull] at hun
    rw [hP] at hsv
    injection hsv with hsv
    rw [hst, ← hsv]
    decide
  · have hS : stateValOf raw = .str s := by
      unfold stateValOf
      rw [hval]
    rw [hS] at hsv
    injection hsv with hsv
    rw [hst, ← hsv]
    exact hmem

/-- C1 witness: the amended statement instantiated on `{status: "started"}`. -/
theorem taskStatus_state_celery_names_witness :
    (⟨.str "", "STARTED", none, false, false, none⟩ : TaskStatusResp).state ∈ celeryStates :=
  taskStatus_state_celery_names (okJson (.obj [("status", .str "started")]))
    rfl rfl (Or.inr ⟨"started", rfl, by decide⟩)

/-! ### C2 -/

/-- C2: whenever the raw task-status payload carries a numeric
`meta.percent` q, the value returned by `taskStatus` carries
`meta.percent = max 0 (min 100 (round q))` — q rounded to a nearest integer
(`jsRound` is within one half of q) and clamped to [0, 100] — and any
returned percent lies between 0 and 100. -/
theorem taskStatus_percent_clamped (res : Response) {raw : JsonValue} {q : ℚ}
    {t : TaskStatusResp} (hb : res.bodyJson = some raw)
    (hp : rawPercent raw = some (.num q)) (h : taskStatus res = .ok t) :
    ∃ m, t.meta = some m ∧
      m.percent = some ((max 0 (min 100 (jsRound q)) : ℤ) : ℚ) ∧
      |((jsRound q : ℤ) : ℚ) - q| ≤ 1 / 2 ∧
      ∀ p', m.percent = some p' → 0 ≤ p' ∧ p' ≤ 100 := by
  have hn := normalizeTaskStatus_fields ((taskStatus_eval (taskStatus_ok_res h) hb) ▸ h)
  obtain ⟨hm, -, -, -⟩ := hn
  obtain ⟨fs, -, hmo⟩ := metaOut_of_percent hp
  refine ⟨⟨fs, some (boundedPercent q)⟩, by rw [hm, hmo], rfl, jsRound_near q, ?_⟩
  intro p' hp'
  injection hp' with hp'
  exact ⟨hp' ▸ boundedPercent_nonneg q, hp' ▸ boundedPercent_le_100 q⟩

/-- C2 witness: instantiated on `{meta: {percent: 105}}`. -/
theorem taskStatus_percent_clamped_witness :
    ∃ m, (⟨.str "", "PENDING", some ⟨[("percent", .num 105)], some (boundedPercent 105)⟩,
        false, false, none⟩ : TaskStatusResp).meta = some m ∧
      m.percent = some ((max 0 (min 100 (jsRound 105)) : ℤ) : ℚ) ∧
      |((jsRound 105 : ℤ) : ℚ) - 105| ≤ 1 / 2 ∧
      ∀ p', m.percent = some p' → 0 ≤ p' ∧ p' ≤ 100 :=
  taskStatus_percent_clamped
    (okJson (.obj [("meta", .obj [("percent", .num 105)])])) rfl rfl rfl

/-! ### C3 -/

/-- C3 (counterexample): for the raw payload
`{state: "PENDING", ready: true, successful: true}` the value returned by
`taskStatus` has `ready = true` and `successful = true` although its state
PENDING is neither SUCCESS nor any terminal state — refuting the claim that
`successful` is true only for SUCCESS and `ready` only for terminal
states. -/
theorem taskStatus_flags_counterexample :
    taskStatus (okJson (.obj [("state", .str "PENDING"), ("ready", .bool true),
        ("successful", .bool true)])) =
      .ok ⟨.str "", "PENDING", none, true, true, none⟩ ∧
      "PENDING" ∉ ["SUCCESS", "FAILED", "CANCELLED"] :=
  ⟨rfl, by decide⟩

/-- C3 (amended): `ready` and `successful` of the value returned by
`taskStatus` are the boolean coercions of the raw payload fields of the same
names, independent of `state`; they are not derived from the state, so each
can be true for any state. -/
theorem taskStatus_flags_passthrough (res : Response) {raw : JsonValue}
    {t : TaskStatusResp} (hb : res.bodyJson = some raw)
    (h : taskStatus res = .ok t) :
    t.ready = jsTruthyOpt (nGet raw "ready") ∧
      t.successful = jsTruthyOpt (nGet raw "successful") := by
  have hn := normalizeTaskStatus_fields ((taskStatus_eval (taskStatus_ok_res h) hb) ▸ h)
  exact ⟨hn.2.1, hn.2.2.1⟩

/-- C3 witness: instantiated on
`{state: "PENDING", ready: true, successful: true}`. -/
theorem taskStatus_flags_passthrough_witness :
    (⟨.str "", "PENDING", none, true, true, none⟩ : TaskStatusResp).ready =
      jsTruthyOpt (nGet (.obj [("state", .str "PENDING"), ("ready", .bool true),
        ("successful", .bool true)]) "ready") ∧
      (⟨.str "", "PENDING", none, true, true, none⟩ : TaskStatusResp).successful =
        jsTruthyOpt (nGet (.obj [("state", .str "PENDING"), ("ready", .bool true),
          ("successful", .bool true)]) "successful") :=
  taskStatus_flags_passthrough
    (okJson (.obj [("state", .str "PENDING"), ("ready", .bool true),
      ("successful", .bool true)])) rfl rfl

/-! ### C7 -/

/-- C7: when the raw payload has no `meta` field the value returned by
`taskStatus` omits `meta` entirely (`none`, i.e. `undefined`; the field type
`Option NormMeta` has no null, mirroring the TypeScript `meta?:` type), and
when `meta` is present but its `percent` is not a number, the returned
`meta.percent` is `none` (`undefined`; its type `Option ℚ` mirrors the
TypeScript `number | undefined`, which likewise has no null). -/
theorem taskStatus_meta_undefined (res : Response) {raw : JsonValue}
    {t : TaskStatusResp} (hb : res.bodyJson = some raw)
    (h : taskStatus res = .ok t) :
    (metaValOf raw = none → t.meta = none) ∧
      (∀ v, metaValOf raw = some v →
        (∀ q : ℚ, rawPercent raw ≠ some (.num q)) →
        t.meta.bind NormMeta.percent = none) := by
  have hn := normalizeTaskStatus_fields ((taskStatus_eval (taskStatus_ok_res h) hb) ▸ h)
  obtain ⟨hm, -, -, -⟩ := hn
  constructor
  · intro hmv
    rw [hm]
    unfold metaOut
    rw [hmv]
  · intro v hmv hnp
    have hbo : boundedOf raw = none := by
      unfold boundedOf
      cases hrp : rawPercent raw with
      | none => rfl
      | some w =>
        cases w with
        | num q => exact absurd hrp (hnp q)
        | null => rfl
        | bool b => rfl
        | str s => rfl
        | arr l => rfl
        | obj l => rfl
    rw [hm]
    unfold metaOut
    rw [hmv, hbo]
    by_cases ht : jsTruthy v = true
    · simp [ht]
    · simp [ht]

/-- C7 witness: instantiated on the payload `{}` (no `meta`) and, for the
second clause, vacuously on its absent meta value. -/
theorem taskStatus_meta_undefined_witness :
    (metaValOf (.obj []) = none →
      (⟨.str "", "PENDING", none, false, false, none⟩ : TaskStatusResp).meta = none) ∧
      (∀ v, metaValOf (.obj []) = some v →
        (∀ q : ℚ, rawPercent (.obj []) ≠ some (.num q)) →
        (⟨.str "", "PENDING", none, false, false, none⟩ :
          TaskStatusResp).meta.bind NormMeta.percent = none) :=
  taskStatus_meta_undefined (okJson (.obj [])) rfl rfl

/-! ### C6 -/

/-- C6 (counterexample): the payload `{"task-id": "t1"}` contains none of
the fields task_id/taskId/id named by the claim, yet `mapColumns` returns
`{taskId: "t1"}` instead of throwing — key normalization also camelizes the
kebab-case spelling. -/
theorem mapColumns_fields_counterexample :
    mapColumns (okJson (.obj [("task-id", .str "t1")])) = .ok ⟨.str "t1"⟩ ∧
      "task-id" ∉ ["task_id", "taskId", "id"] :=
  ⟨rfl, by decide⟩

/-- C6 (amended): `mapColumns` draws the identifier from the camelized
`taskId` key (hence from a `task_id`, `task-id` or `taskId` field), falling
back to the `id` key; it throws `Invalid map response` when the payload has
no field under either camelized key, and whenever it does return, the
returned `taskId` is the drawn truthy value — in particular never the empty
string. -/
theorem mapColumns_taskId_extraction (res : Response) {raw : JsonValue}
    (hb : res.bodyJson = some raw) :
    (res.ok = true → nGet raw "taskId" = none → nGet raw "id" = none →
      mapColumns res = .error (.errMsg "Invalid map response")) ∧
      (∀ r, mapColumns res = .ok r →
        ∃ v, nvl (nGet raw "taskId") (nGet raw "id") = some v ∧ r.taskId = v ∧
          jsTruthy v = true ∧ r.taskId ≠ .str "") := by
  constructor
  · intro hok h1 h2
    rw [mapColumns_eval hok hb]
    unfold normalizeMap
    rw [h1, h2]
    rfl
  · intro r hr
    have hok := mapColumns_ok_res hr
    rw [mapColumns_eval hok hb] at hr
    unfold normalizeMap at hr
    split at hr
    · rename_i v hv
      split at hr
      · rename_i ht
        injection hr with hr
        have hne : v ≠ .str "" := by
          intro he
          rw [he] at ht
          simp [jsTruthy] at ht
        exact ⟨v, hv, by rw [← hr], ht, by rw [← hr]; exact hne⟩
      · exact Except.noConfusion hr
    · exact Except.noConfusion hr

/-- C6 witness: the throw clause instantiated on the empty payload. -/
theorem mapColumns_taskId_extraction_witness :
    mapColumns (okJson (.obj [])) = .error (.errMsg "Invalid map response") :=
  (mapColumns_taskId_extraction (okJson (.obj [])) rfl).1 rfl rfl rfl

/-! ### C8 -/

/-- C8: for every non-2xx response, each of `uploadFile`, `mapColumns`,
`taskStatus`, `salarySummary` and `stackCompare` throws an `ApiError` whose
`status` is the HTTP status of the response and whose `payload` is the
parsed body (the JSON body — `{}` when JSON parsing fails — under a JSON
content type, the body text otherwise); none of them returns a value for a
failed response. -/
theorem endpoints_apiError (res : Response) (hok : res.ok = false) :
    uploadFile res = .error (.apiErr res.status (errorPayload res)) ∧
      mapColumns res = .error (.apiErr res.status (errorPayload res)) ∧
      taskStatus res = .error (.apiErr res.status (errorPayload res)) ∧
      salarySummary res = .error (.apiErr res.status (errorPayload res)) ∧
      stackCompare res = .error (.apiErr res.status (errorPayload res)) := by
  have hrq : requestJson res = .error (.apiErr res.status (errorPayload res)) := by
    unfold requestJson
    rw [if_neg (by simp [hok])]
  exact ⟨by unfold uploadFile; rw [hrq]; rfl,
    by unfold mapColumns; rw [hrq]; rfl,
    by unfold taskStatus; rw [hrq]; rfl,
    by unfold salarySummary; rw [hrq]; rfl,
    by unfold stackCompare; rw [hrq]; rfl⟩

/-- C8 witness: instantiated on a 400 JSON error response. -/
theorem endpoints_apiError_witness :
    uploadFile ⟨400, "application/json", some (.obj [("detail", .str "invalid file")]), ""⟩ =
      .error (.apiErr 400 (errorPayload
        ⟨400, "application/json", some (.obj [("detail", .str "invalid file")]), ""⟩)) ∧
      mapColumns ⟨400, "application/json", some (.obj [("detail", .str "invalid file")]), ""⟩ =
        .error (.apiErr 400 (errorPayload
          ⟨400, "application/json", some (.obj [("detail", .str "invalid file")]), ""⟩)) ∧
      taskStatus ⟨400, "application/json", some (.obj [("detail", .str "invalid file")]), ""⟩ =
        .error (.apiErr 400 (errorPayload
          ⟨400, "application/json", some (.obj [("detail", .str "invalid file")]), ""⟩)) ∧
      salarySummary ⟨400, "application/json", some (.obj [("detail", .str "invalid file")]), ""⟩ =
        .error (.apiErr 400 (errorPayload
          ⟨400, "application/json", some (.obj [("detail", .str "invalid file")]), ""⟩)) ∧
      stackCompare ⟨400, "application/json", some (.obj [("detail", .str "invalid file")]), ""⟩ =
        .error (.apiErr 400 (errorPayload
          ⟨400, "application/json", some (.obj [("detail", .str "invalid file")]), ""⟩)) :=
  endpoints_apiError
    ⟨400, "application/json", some (.obj [("detail", .str "invalid file")]), ""⟩ rfl

/-! ### C5 -/

/-- C5: the spec-modelled nearest-rank percentile (rank = ceil(p/100 * n) on
the sorted salary sequence) gives, for the salaries [10,20,30,40,50],
p50 = 30 and p90 = 50 with n = 5; the rank values themselves are
ceil(50·5/100) = 3 and ceil(90·5/100) = 5. -/
theorem nearestRank_percentile_values :
    nearestRankPercentile 50 [10, 20, 30, 40, 50] = some 30 ∧
      nearestRankPercentile 90 [10, 20, 30, 40, 50] = some 50 ∧
      ([10, 20, 30, 40, 50] : List ℚ).length = 5 ∧
      ⌈(50 : ℚ) * 5 / 100⌉ = 3 ∧ ⌈(90 : ℚ) * 5 / 100⌉ = 5 := by
  have hs : sortAsc [10, 20, 30, 40, 50] = [10, 20, 30, 40, 50] := by decide
  have h50 : ⌈(5 : ℚ) / 2⌉ = 3 := by
    rw [Int.ceil_eq_iff]; norm_num
  have h90 : ⌈(9 : ℚ) / 2⌉ = 5 := by
    rw [Int.ceil_eq_iff]; norm_num
  refine ⟨?_, ?_, by decide, ?_, ?_⟩
  · simp only [nearestRankPercentile, hs]
    norm_num
    rw [h50]
    decide
  · simp only [nearestRankPercentile, hs]
    norm_num
    rw [h90]
    decide
  · rw [show ((50 : ℚ) * 5 / 100) = 5 / 2 by norm_num]
    exact h50
  · rw [show ((90 : ℚ) * 5 / 100) = 9 / 2 by norm_num]
    exact h90

/-! ### C9 -/

/-- On non-null elements, the row callback is the pure row builder. -/
theorem stackRowOf_non_null {e : JsonValue} (he : e ≠ .null) :
    stackRowOf e = .ok (rowOfNonNull e) := by
  cases e with
  | null => exact absurd rfl he
  | bool b => rfl
  | num q => rfl
  | str s => rfl
  | arr l => rfl
  | obj l => rfl

/-- When no element is null, the whole map succeeds with the pure rows. -/
theorem mapExcept_all_ok {els : List JsonValue} (h : ∀ e ∈ els, e ≠ .null) :
    mapExcept stackRowOf els = .ok (els.map rowOfNonNull) := by
  induction els with
  | nil => rfl
  | cons e es ih =>
    have he := h e (List.mem_cons_self e es)
    have ihs := ih (fun x hx => h x (List.mem_cons_of_mem e hx))
    unfold mapExcept
    simp only [stackRowOf_non_null he, ihs]
    rfl

/-- Every row of a successful map comes from a non-null element through the
pure row builder. -/
theorem mapExcept_ok_mem {els : List JsonValue} {rows : List StackCompareRow}
    (h : mapExcept stackRowOf els = .ok rows) :
    ∀ r ∈ rows, ∃ e ∈ els, e ≠ .null ∧ r = rowOfNonNull e := by
  induction els generalizing rows with
  | nil =>
    injection h with h
    subst h
    intro r hr
    exact absurd hr (List.not_mem_nil r)
  | cons e es ih =>
    unfold mapExcept at h
    cases hf : stackRowOf e with
    | error err =>
      rw [hf] at h
      exact Except.noConfusion h
    | ok r0 =>
      simp only [hf] at h
      cases hm : mapExcept stackRowOf es with
      | error err =>
        rw [hm] at h
        exact Except.noConfusion h
      | ok rs =>
        simp only [hm] at h
        injection h with h
        subst h
        have hr0 : e ≠ .null ∧ r0 = rowOfNonNull e := by
          cases e with
          | null => exact Except.noConfusion hf
          | bool b =>
            refine ⟨fun hc => JsonValue.noConfusion hc, ?_⟩
            injection hf with hf
            exact hf.symm
          | num q =>
            refine ⟨fun hc => JsonValue.noConfusion hc, ?_⟩
            injection hf with hf
            exact hf.symm
          | str s =>
            refine ⟨fun hc => JsonValue.noConfusion hc, ?_⟩
            injection hf with hf
            exact hf.symm
          | arr l =>
            refine ⟨fun hc => JsonValue.noConfusion hc, ?_⟩
            injection hf with hf
            exact hf.symm
          | obj l =>
            refine ⟨fun hc => JsonValue.noConfusion hc, ?_⟩
            injection hf with hf
            exact hf.symm
        intro r hr
        rcases List.mem_cons.mp hr with hr0' | hrs
        · exact ⟨e, List.mem_cons_self e es, hr0.1, hr0' ▸ hr0.2⟩
        · obtain ⟨e', he', hne, hre⟩ := ih hm r hrs
          exact ⟨e', List.mem_cons_of_mem e he', hne, hre⟩

/-- C9 (counterexample): on the successful JSON payload `[null]` the
`stackCompare` mapper throws a TypeError (property access on a null row)
instead of returning an array — refuting the claim that it returns an array
without throwing for every payload. -/
theorem stackCompare_null_counterexample :
    stackCompare (okJson (.arr [.null])) = .error .typeErr :=
  rfl

/-- C9 (amended): for every successful JSON payload whose array elements are
all non-null, `stackCompare` returns without throwing: the empty array when
neither the payload nor its `data` field is an array, and otherwise exactly
one row per element, where `stack` is the element's string-typed `stack`
field, else its string-typed `tech` field, else the literal `-` (a null
element instead makes the row callback throw, per the counterexample). -/
theorem stackCompare_rows (res : Response) {raw : JsonValue}
    (hb : res.bodyJson = some raw) (hok : res.ok = true) :
    (arrayPart raw = none → stackCompare res = .ok []) ∧
      (∀ els, arrayPart raw = some els → (∀ e ∈ els, e ≠ .null) →
        stackCompare res = .ok (els.map rowOfNonNull) ∧
          ∀ e ∈ els, (rowOfNonNull e).stack =
            (match jsGetField e "stack" with
              | some (.str s) => s
              | _ =>
                match jsGetField e "tech" with
                | some (.str s) => s
                | _ => "-")) := by
  constructor
  · intro hnone
    rw [stackCompare_eval hok hb]
    unfold stackCompareOf
    simp only [hnone]
  · intro els hels hnn
    refine ⟨?_, fun e _ => rfl⟩
    rw [stackCompare_eval hok hb]
    unfold stackCompareOf
    simp only [hels]
    exact mapExcept_all_ok hnn

/-- C9 witness: the amended statement instantiated on the payload
`{data: [{stack: "react", p50: 50, n: 10}]}`. -/
theorem stackCompare_rows_witness :
    (arrayPart (.obj [("data", .arr [.obj [("stack", .str "react"), ("p50", .num 50),
        ("n", .num 10)]])]) = none →
      stackCompare (okJson (.obj [("data", .arr [.obj [("stack", .str "react"),
        ("p50", .num 50), ("n", .num 10)]])])) = .ok []) ∧
      (∀ els, arrayPart (.obj [("data", .arr [.obj [("stack", .str "react"), ("p50", .num 50),
          ("n", .num 10)]])]) = some els → (∀ e ∈ els, e ≠ .null) →
        stackCompare (okJson (.obj [("data", .arr [.obj [("stack", .str "react"),
            ("p50", .num 50), ("n", .num 10)]])])) = .ok (els.map rowOfNonNull) ∧
          ∀ e ∈ els, (rowOfNonNull e).stack =
            (match jsGetField e "stack" with
              | some (.str s) => s
              | _ =>
                match jsGetField e "tech" with
                | some (.str s) => s
                | _ => "-")) :=
  stackCompare_rows (okJson (.obj [("data", .arr [.obj [("stack", .str "react"),
    ("p50", .num 50), ("n", .num 10)]])])) rfl rfl

/-! ### C10 -/

/-- A value that is not null is not nullish. -/
theorem undefOrNull_eq_false {v : JsonValue} (h : v ≠ .null) :
    undefOrNull (some v) = false := by
  cases v with
  | null => exact absurd rfl h
  | bool b => rfl
  | num q => rfl
  | str s => rfl
  | arr l => rfl
  | obj l => rfl

/-- C10: `salarySummary` maps a payload wrapped in a `data` object and the
same (non-null, `data`-free) payload given flat to equal results; a missing
(or null) `p50` is substituted by `median` and a missing `n` by `count`; and
all of p50, p75, p90, n default to 0 when every corresponding source field
is absent. -/
theorem salarySummary_shape_fallbacks :
    (∀ D : JsonValue, D ≠ .null → undefOrNull (jsGetField D "data") = true →
      salarySummary (okJson (.obj [("data", D)])) = salarySummary (okJson D)) ∧
      (∀ raw, jsGetField (containerOf raw) "p50" = none →
        (salarySummaryOf raw).p50 = numField (jsGetField (containerOf raw) "median")) ∧
      (∀ raw, jsGetField (containerOf raw) "n" = none →
        (salarySummaryOf raw).n = numField (jsGetField (containerOf raw) "count")) ∧
      (∀ raw, jsGetField (containerOf raw) "p50" = none →
        jsGetField (containerOf raw) "median" = none →
        jsGetField (containerOf raw) "p75" = none →
        jsGetField (containerOf raw) "p90" = none →
        jsGetField (containerOf raw) "n" = none →
        jsGetField (containerOf raw) "count" = none →
        salarySummaryOf raw = ⟨some 0, some 0, some 0, some 0⟩) := by
  refine ⟨?_, ?_, ?_, ?_⟩
  · intro D hD hdata
    have hcw : containerOf (.obj [("data", D)]) = D := by
      simp [containerOf, nvl, undefOrNull_eq_false hD,
        show jsGetField (.obj [("data", D)]) "data" = some D from rfl]
    have hd : (match D with
        | JsonValue.null => none
        | v => jsGetField v "data") = jsGetField D "data" := by
      cases D with
      | null => exact absurd rfl hD
      | bool b => rfl
      | num q => rfl
      | str s => rfl
      | arr l => rfl
      | obj l => rfl
    have hcf : containerOf D = D := by
      simp [containerOf, nvl, hd, hdata, undefOrNull_eq_false hD]
    rw [salarySummary_eval (okJson (.obj [("data", D)])) rfl rfl,
      salarySummary_eval (okJson D) rfl rfl]
    unfold salarySummaryOf
    rw [hcw, hcf]
  · intro raw hp
    simp [salarySummaryOf, nvl, hp, undefOrNull]
  · intro raw hn
    simp [salarySummaryOf, nvl, hn, undefOrNull]
  · intro raw h1 h2 h3 h4 h5 h6
    simp [salarySummaryOf, nvl, undefOrNull, numField, toNumber, h1, h2, h3, h4, h5, h6]

/-- C10 witness: the wrapping clause instantiated on `{p50: 42}`. -/
theorem salarySummary_shape_fallbacks_witness :
    salarySummary (okJson (.obj [("data", .obj [("p50", .num 42)])])) =
      salarySummary (okJson (.obj [("p50", .num 42)])) :=
  salarySummary_shape_fallbacks.1 (.obj [("p50", .num 42)])
    (fun h => JsonValue.noConfusion h) rfl

/-! ### C4 -/

/-- A raw field that is absent, null, or a non-negative number — the inputs
under which the claimed non-negativity can hold. -/
def nonnegOrAbsent : Option JsonValue → Prop
  | none => True
  | some .null => True
  | some (.num q) => 0 ≤ q
  | some _ => False

/-- An output number that is an actual (finite) non-negative rational — in
this model `none` is `NaN`, so membership in `finiteNonneg` is exactly the
claimed "finite non-negative number". -/
def finiteNonneg : Option ℚ → Prop
  | some q => 0 ≤ q
  | none => False

/-- The three possible shapes of a `nonnegOrAbsent` field. -/
theorem nonnegOrAbsent_cases {v : Option JsonValue} (h : nonnegOrAbsent v) :
    v = none ∨ v = some .null ∨ ∃ q : ℚ, v = some (.num q) ∧ 0 ≤ q := by
  cases v with
  | none => exact Or.inl rfl
  | some x =>
    cases x with
    | null => exact Or.inr (Or.inl rfl)
    | num q => exact Or.inr (Or.inr ⟨q, rfl, h⟩)
    | bool b => exact h.elim
    | str s => exact h.elim
    | arr l => exact h.elim
    | obj l => exact h.elim

/-- `numField` of a well-shaped field is a finite non-negative number. -/
theorem numField_nonneg {v : Option JsonValue} (h : nonnegOrAbsent v) :
    finiteNonneg (numField v) := by
  rcases nonnegOrAbsent_cases h with hv | hv | ⟨q, hv, hq⟩
  · subst hv
    simp [numField, nvl, undefOrNull, toNumber, finiteNonneg]
  · subst hv
    simp [numField, nvl, undefOrNull, toNumber, finiteNonneg]
  · subst hv
    simpa [numField, finiteNonneg] using hq

/-- `numField` of a nullish-chain of two well-shaped fields is a finite
non-negative number. -/
theorem numField_chain_nonneg {v w : Option JsonValue}
    (hv : nonnegOrAbsent v) (hw : nonnegOrAbsent w) :
    finiteNonneg (numField (nvl v w)) := by
  rcases nonnegOrAbsent_cases hv with h | h | ⟨q, h, hq⟩
  · subst h
    simpa [nvl, undefOrNull] using numField_nonneg hw
  · subst h
    simpa [nvl, undefOrNull] using numField_nonneg hw
  · subst h
    simpa [nvl, undefOrNull] using numField_nonneg hv

/-- The `p50`/`n` of a stack row built from well-shaped fields are finite
non-negative numbers. -/
theorem rowOfNonNull_nonneg {e : JsonValue}
    (h50 : nonnegOrAbsent (jsGetField e "p50"))
    (hmed : nonnegOrAbsent (jsGetField e "median"))
    (hn : nonnegOrAbsent (jsGetField e "n"))
    (hcnt : nonnegOrAbsent (jsGetField e "count")) :
    finiteNonneg (rowOfNonNull e).p50 ∧ finiteNonneg (rowOfNonNull e).n := by
  constructor
  · rcases nonnegOrAbsent_cases h50 with h | h | ⟨q, h, hq⟩
    · rcases nonnegOrAbsent_cases hmed with hm | hm | ⟨q', hm, hq'⟩
      · simp [rowOfNonNull, h, hm, nvl, undefOrNull, toNumber, finiteNonneg]
      · simp [rowOfNonNull, h, hm, nvl, undefOrNull, toNumber, finiteNonneg]
      · simpa [rowOfNonNull, h, hm, finiteNonneg] using hq'
    · rcases nonnegOrAbsent_cases hmed with hm | hm | ⟨q', hm, hq'⟩
      · simp [rowOfNonNull, h, hm, nvl, undefOrNull, toNumber, finiteNonneg]
      · simp [rowOfNonNull, h, hm, nvl, undefOrNull, toNumber, finiteNonneg]
      · simpa [rowOfNonNull, h, hm, finiteNonneg] using hq'
    · simpa [rowOfNonNull, h, finiteNonneg] using hq
  · rcases nonnegOrAbsent_cases hn with h | h | ⟨q, h, hq⟩
    · rcases nonnegOrAbsent_cases hcnt with hm | hm | ⟨q', hm, hq'⟩
      · simp [rowOfNonNull, h, hm, nvl, undefOrNull, toNumber, finiteNonneg]
      · simp [rowOfNonNull, h, hm, nvl, undefOrNull, toNumber, finiteNonneg]
      · simpa [rowOfNonNull, h, hm, finiteNonneg] using hq'
    · rcases nonnegOrAbsent_cases hcnt with hm | hm | ⟨q', hm, hq'⟩
      · simp [rowOfNonNull, h, hm, nvl, undefOrNull, toNumber, finiteNonneg]
      · simp [rowOfNonNull, h, hm, nvl, undefOrNull, toNumber, finiteNonneg]
      · simpa [rowOfNonNull, h, hm, finiteNonneg] using hq'
    · simpa [rowOfNonNull, h, finiteNonneg] using hq

/-- C4 (counterexample): the payload `{p50: -5}` makes `salarySummary`
return `p50 = -5`, a negative number — refuting the claim that every numeric
field of the returned values is non-negative for every payload. -/
theorem analytics_nonneg_counterexample :
    salarySummary (okJson (.obj [("p50", .num (-5))])) =
      .ok ⟨some (-5), some 0, some 0, some 0⟩ ∧ ¬((0 : ℚ) ≤ -5) :=
  ⟨rfl, by norm_num⟩

/-- C4 (amended): the numeric fields of `salarySummary` and `stackCompare`
results are pass-throughs of the payload numbers (with 0 defaults), so they
are finite non-negative numbers whenever every corresponding payload field
is absent, null, or a non-negative number — but a negative or non-numeric
payload value is passed through (per the counterexample), so the claim does
not hold unconditionally. -/
theorem analytics_nonneg (res : Response) {raw : JsonValue}
    (hb : res.bodyJson = some raw) (hok : res.ok = true) :
    ((∀ k ∈ (["p50", "median", "p75", "p90", "n", "count"] : List String),
        nonnegOrAbsent (jsGetField (containerOf raw) k)) →
      ∀ s, salarySummary res = .ok s →
        finiteNonneg s.p50 ∧ finiteNonneg s.p75 ∧ finiteNonneg s.p90 ∧ finiteNonneg s.n) ∧
      (∀ els rows, arrayPart raw = some els →
        (∀ e ∈ els, nonnegOrAbsent (jsGetField e "p50") ∧
          nonnegOrAbsent (jsGetField e "median") ∧
          nonnegOrAbsent (jsGetField e "n") ∧ nonnegOrAbsent (jsGetField e "count")) →
        stackCompare res = .ok rows →
        ∀ row ∈ rows, finiteNonneg row.p50 ∧ finiteNonneg row.n) := by
  constructor
  · intro hf s hs
    rw [salarySummary_eval res hok hb] at hs
    injection hs with hs
    subst hs
    refine ⟨?_, ?_, ?_, ?_⟩
    · exact numField_chain_nonneg (hf "p50" (by simp)) (hf "median" (by simp))
    · exact numField_nonneg (hf "p75" (by simp))
    · exact numField_nonneg (hf "p90" (by simp))
    · exact numField_chain_nonneg (hf "n" (by simp)) (hf "count" (by simp))
  · intro els rows hels hfields hrows
    rw [stackCompare_eval hok hb] at hrows
    unfold stackCompareOf at hrows
    simp only [hels] at hrows
    intro row hrow
    obtain ⟨e, he, -, hre⟩ := mapExcept_ok_mem hrows row hrow
    obtain ⟨h1, h2, h3, h4⟩ := hfields e he
    rw [hre]
    exact rowOfNonNull_nonneg h1 h2 h3 h4

/-- C4 witness: the salary-summary clause instantiated on `{p50: 42}`. -/
theorem analytics_nonneg_witness :
    finiteNonneg (⟨some 42, some 0, some 0, some 0⟩ : SalarySummary).p50 ∧
      finiteNonneg (⟨some 42, some 0, some 0, some 0⟩ : SalarySummary).p75 ∧
      finiteNonneg (⟨some 42, some 0, some 0, some 0⟩ : SalarySummary).p90 ∧
      finiteNonneg (⟨some 42, some 0, some 0, some 0⟩ : SalarySummary).n := by
  refine (analytics_nonneg (okJson (.obj [("p50", .num 42)])) rfl rfl).1 ?_ _ rfl
  intro k hk
  fin_cases hk
  · exact (by norm_num : (0 : ℚ) ≤ 42)
  · trivial
  · trivial
  · trivial
  · trivial
  · trivial

end Skillora
